import Mathlib

/-!
Verification of the `trapdoor` crate: a single-slot handoff channel
(`Trapdoor`, src/lib.rs) and a triple-buffered latest-value channel
(`MontyHall`, src/triple.rs).

The Rust code is shallowly embedded:
* `MaybeUninit<T>` slots become `Option T` (`none` = uninitialized);
* the atomic flag / packed metadata word become plain record fields,
  since we verify the sequential (single-producer single-consumer,
  one-outstanding-handle) executions the crate's contract allows;
* functions that can panic return `Option` (`none` = panic);
* `assume_init` on an uninitialized slot (undefined behaviour) makes a
  step return `none` (stuck), and the invariants below show such a
  state is unreachable;
* destruction of a value (`drop` in Rust) is recorded in a ghost list
  `destroyed`, so "destroyed exactly once" becomes a multiset equation.
-/

/-! ## Handoff channel: `Trapdoor<T>` (src/lib.rs) -/

/-- State of `Trapdoor<T>`: `populated: AtomicBool` and
`data: Cell<MaybeUninit<T>>`.  `data = none` models an uninitialized
`MaybeUninit`; validity of `data` follows `populated`. -/
structure Trapdoor (T : Type) where
  populated : Bool
  data : Option T
deriving Repr, DecidableEq

namespace Trapdoor

variable {T : Type}

/-- `Trapdoor::new`: empty trapdoor. -/
def new : Trapdoor T := { populated := false, data := none }

/-- `Trapdoor::with_value`: trapdoor pre-populated with a value. -/
def with_value (value : T) : Trapdoor T :=
  { populated := true, data := some value }

/-- `Trapdoor::with_default`: pre-populated with the default value
(Rust `T: Default` becomes `Inhabited T`). -/
def with_default [Inhabited T] : Trapdoor T := with_value default

/-- `Trapdoor::try_store`: if populated, return `Except.error value`
(the value is handed back) and leave the state untouched; otherwise
write the value, set the flag, and return `Except.ok ()`. -/
def try_store (t : Trapdoor T) (value : T) : Trapdoor T × Except T Unit :=
  if t.populated then
    (t, Except.error value)
  else
    ({ populated := true, data := some value }, Except.ok ())

/-- `Trapdoor::try_take`: if populated, move the value out (the slot
becomes uninitialized, the flag is cleared); otherwise return `none`
and leave the state untouched. -/
def try_take (t : Trapdoor T) : Trapdoor T × Option T :=
  if t.populated then
    ({ populated := false, data := none }, t.data)
  else
    (t, none)

/-- `Trapdoor::try_peek`: borrow the value if populated, without
changing any state. -/
def try_peek (t : Trapdoor T) : Option T :=
  if t.populated then t.data else none

/-- `impl Drop for Trapdoor`: teardown runs `try_take` and drops the
result.  Returns the list of values destroyed by teardown. -/
def dropDestroyed (t : Trapdoor T) : List T :=
  (t.try_take).2.toList

end Trapdoor

/-- `TrapdoorWrite::store`: panics (here: `none`) when `try_store`
fails, otherwise returns the new state. -/
def TrapdoorWrite.store {T : Type} (t : Trapdoor T) (value : T) :
    Option (Trapdoor T) :=
  match t.try_store value with
  | (t1, Except.ok _) => some t1
  | (_, Except.error _) => none

/-- `TrapdoorRead::take`: `try_take().expect(..)` — panics (here:
`none`) when the trapdoor is empty. -/
def TrapdoorRead.take {T : Type} (t : Trapdoor T) :
    Option (Trapdoor T × T) :=
  match t.try_take with
  | (t1, some v) => some (t1, v)
  | (_, none) => none

/-- `TrapdoorRead::peek`: `try_peek().expect(..)` — panics (here:
`none`) when the trapdoor is empty. -/
def TrapdoorRead.peek {T : Type} (t : Trapdoor T) : Option T :=
  t.try_peek

/-- C3: on a handoff channel whose occupancy flag is false, `store(v)`
succeeds, and a subsequent `take()` returns exactly `v` by ownership
transfer: the post-state is unoccupied, holds no copy of the value,
and its teardown destroys nothing. -/
theorem trapdoor_store_take_roundtrip {T : Type} (t : Trapdoor T) (v : T)
    (h : t.populated = false) :
    (t.try_store v).2 = Except.ok () ∧
    ∃ t2, TrapdoorRead.take (t.try_store v).1 = some (t2, v) ∧
      t2.populated = false ∧ t2.data = none ∧
      Trapdoor.dropDestroyed t2 = [] := by
  refine ⟨by simp [Trapdoor.try_store, h], ⟨Trapdoor.new, ?_, rfl, rfl, rfl⟩⟩
  simp [Trapdoor.try_store, h, TrapdoorRead.take, Trapdoor.try_take,
    Trapdoor.new]

/-- C3 witness at `T = Nat`, `t = Trapdoor.new`, `v = 3`. -/
theorem trapdoor_store_take_roundtrip_witness :
    ((Trapdoor.new : Trapdoor Nat).populated = false) ∧
    ((Trapdoor.new.try_store 3).2 = Except.ok () ∧
    ∃ t2, TrapdoorRead.take ((Trapdoor.new : Trapdoor Nat).try_store 3).1 =
        some (t2, 3) ∧
      t2.populated = false ∧ t2.data = none ∧
      Trapdoor.dropDestroyed t2 = []) :=
  ⟨rfl, trapdoor_store_take_roundtrip Trapdoor.new 3 rfl⟩

/-- C6: when the occupancy flag is true, `try_store(v)` fails, hands
exactly `v` back, and leaves the whole state (flag and stored data)
unchanged; `store(v)` panics in the same state. -/
theorem trapdoor_store_occupied_fails {T : Type} (t : Trapdoor T) (v : T)
    (h : t.populated = true) :
    t.try_store v = (t, Except.error v) ∧
    TrapdoorWrite.store t v = none := by
  constructor
  · simp [Trapdoor.try_store, h]
  · simp [TrapdoorWrite.store, Trapdoor.try_store, h]

/-- C6 witness at `t = Trapdoor.with_value 1`, `v = 2`. -/
theorem trapdoor_store_occupied_fails_witness :
    ((Trapdoor.with_value 1 : Trapdoor Nat).populated = true) ∧
    ((Trapdoor.with_value 1 : Trapdoor Nat).try_store 2 =
      (Trapdoor.with_value 1, Except.error 2) ∧
    TrapdoorWrite.store (Trapdoor.with_value 1 : Trapdoor Nat) 2 = none) :=
  ⟨rfl, trapdoor_store_occupied_fails (Trapdoor.with_value 1) 2 rfl⟩

/-- C7: teardown of a channel still holding a stored value destroys
exactly that value, once; teardown of an unoccupied channel, in
particular of the post-state of a successful `take`, destroys
nothing. -/
theorem trapdoor_drop_exactly_once {T : Type} (t : Trapdoor T) (w : T) :
    (t.populated = true → t.data = some w →
      Trapdoor.dropDestroyed t = [w]) ∧
    (t.populated = false → Trapdoor.dropDestroyed t = []) ∧
    (∀ t2 u, TrapdoorRead.take t = some (t2, u) →
      Trapdoor.dropDestroyed t2 = []) := by
  refine ⟨fun hp hd => ?_, fun hp => ?_, fun t2 u h => ?_⟩
  · simp [Trapdoor.dropDestroyed, Trapdoor.try_take, hp, hd]
  · simp [Trapdoor.dropDestroyed, Trapdoor.try_take, hp]
  · rcases t with ⟨p, d⟩
    cases p <;> cases d <;>
      simp_all [TrapdoorRead.take, Trapdoor.try_take,
        Trapdoor.dropDestroyed]
    rcases h with ⟨h1, h2⟩
    subst h1
    rfl

/-- C8: with the occupancy flag false, `try_take` and `try_peek`
return `none` and leave the state unchanged, while `take` and `peek`
panic. -/
theorem trapdoor_empty_take_peek {T : Type} (t : Trapdoor T)
    (h : t.populated = false) :
    t.try_take = (t, none) ∧ t.try_peek = none ∧
    TrapdoorRead.take t = none ∧ TrapdoorRead.peek t = none := by
  refine ⟨?_, ?_, ?_, ?_⟩ <;>
    simp [Trapdoor.try_take, Trapdoor.try_peek, TrapdoorRead.take,
      TrapdoorRead.peek, h]

/-- C8 witness at `t = Trapdoor.new : Trapdoor Nat`. -/
theorem trapdoor_empty_take_peek_witness :
    ((Trapdoor.new : Trapdoor Nat).populated = false) ∧
    ((Trapdoor.new : Trapdoor Nat).try_take = (Trapdoor.new, none) ∧
    (Trapdoor.new : Trapdoor Nat).try_peek = none ∧
    TrapdoorRead.take (Trapdoor.new : Trapdoor Nat) = none ∧
    TrapdoorRead.peek (Trapdoor.new : Trapdoor Nat) = none) :=
  ⟨rfl, trapdoor_empty_take_peek Trapdoor.new rfl⟩

/-- C10: `new()` starts unoccupied (first `try_take`/`try_peek` return
`none`); `with_value v` starts occupied holding exactly `v` (first
`take` returns `v`); `with_default` equals `with_value` of the default
value. -/
theorem trapdoor_constructors {T : Type} [Inhabited T] (v : T) :
    (Trapdoor.new : Trapdoor T).populated = false ∧
    (Trapdoor.new : Trapdoor T).try_take = (Trapdoor.new, none) ∧
    (Trapdoor.new : Trapdoor T).try_peek = none ∧
    (Trapdoor.with_value v).populated = true ∧
    (Trapdoor.with_value v).data = some v ∧
    TrapdoorRead.take (Trapdoor.with_value v) =
      some ({ populated := false, data := none }, v) ∧
    (Trapdoor.with_default : Trapdoor T) =
      Trapdoor.with_value (default : T) := by
  refine ⟨rfl, rfl, rfl, rfl, rfl, ?_, rfl⟩
  simp [TrapdoorRead.take, Trapdoor.try_take, Trapdoor.with_value]

/-- C7 witness: a populated channel holding `5` tears down to `[5]`; an
empty channel tears down to `[]`. -/
theorem trapdoor_drop_exactly_once_witness :
    Trapdoor.dropDestroyed (Trapdoor.with_value 5 : Trapdoor Nat) = [5] ∧
    Trapdoor.dropDestroyed (Trapdoor.new : Trapdoor Nat) = [] :=
  ⟨(trapdoor_drop_exactly_once (Trapdoor.with_value 5) 5).1 rfl rfl,
   (trapdoor_drop_exactly_once Trapdoor.new 5).2.1 rfl⟩

/-! ## Triple-buffer channel: `MontyHall<T>` (src/triple.rs) -/

/-- The sentinel `u8::MAX` used for "no slot acquired". -/
def u8MAX : Nat := 255

/-- `BucketInfo { acquired: u8, canonical: u8 }`, the packed metadata
word.  `acquired = u8MAX` means no read handle is outstanding. -/
structure BucketInfo where
  acquired : Nat
  canonical : Nat
deriving Repr, DecidableEq

/-- Bitwise complement on `u32` (Rust `!x`): for `x < 2^32` this is
`0xFFFFFFFF ^^^ x = 0xFFFFFFFF - x`. -/
def u32not (x : Nat) : Nat := 4294967295 - x % 4294967296

/-- `u32::trailing_zeros`: index of the lowest set bit, `32` for `0`. -/
def trailingZeros32 (x : Nat) : Nat :=
  (((List.range 32).find? fun i => x.testBit i).getD 32)

/-- `MontyHall::write_bucket`: mask out the acquired slot (when it is a
real slot, i.e. `< 3`) and the canonical slot from `0b111`, and return
the index of the lowest remaining set bit. -/
def writeBucket (info : BucketInfo) : Nat :=
  let mask1 : Nat := 7
  let mask2 :=
    if info.acquired < 3 then mask1 &&& u32not (1 <<< info.acquired)
    else mask1
  let mask3 := mask2 &&& u32not (1 <<< info.canonical)
  trailingZeros32 mask3

/-- C4: for every metadata state with `canonical` in `{0,1,2}` and
`acquired` in `{0,1,2,u8MAX}`, `write_bucket` returns the
lowest-numbered slot index in `{0,1,2}` equal to neither `acquired`
nor `canonical`; in particular it never selects the pinned or the
canonical slot. -/
theorem writeBucket_lowest_free (a c : Nat)
    (ha : a = 0 ∨ a = 1 ∨ a = 2 ∨ a = u8MAX)
    (hc : c = 0 ∨ c = 1 ∨ c = 2) :
    (writeBucket ⟨a, c⟩ = 0 ∨ writeBucket ⟨a, c⟩ = 1 ∨
      writeBucket ⟨a, c⟩ = 2) ∧
    writeBucket ⟨a, c⟩ ≠ a ∧ writeBucket ⟨a, c⟩ ≠ c ∧
    ∀ j, j < writeBucket ⟨a, c⟩ → (j = a ∨ j = c) := by
  rcases ha with rfl | rfl | rfl | rfl <;>
    rcases hc with rfl | rfl | rfl <;> decide

/-- C4 witness at `acquired = u8MAX`, `canonical = 0` (result is slot 1). -/
theorem writeBucket_lowest_free_witness :
    (writeBucket ⟨u8MAX, 0⟩ = 0 ∨ writeBucket ⟨u8MAX, 0⟩ = 1 ∨
      writeBucket ⟨u8MAX, 0⟩ = 2) ∧
    writeBucket ⟨u8MAX, 0⟩ ≠ u8MAX ∧ writeBucket ⟨u8MAX, 0⟩ ≠ 0 ∧
    ∀ j, j < writeBucket ⟨u8MAX, 0⟩ → (j = u8MAX ∨ j = 0) :=
  writeBucket_lowest_free u8MAX 0 (by decide) (by decide)

/-- The three storage slots `buckets: [RefCell<MaybeUninit<T>>; 3]`.
`none` models an uninitialized `MaybeUninit`. -/
structure Buckets (T : Type) where
  b0 : Option T
  b1 : Option T
  b2 : Option T
deriving Repr, DecidableEq

namespace Buckets

variable {T : Type}

/-- Read slot `i` (indexing `buckets[i]`; only `i < 3` is reachable). -/
def get (b : Buckets T) (i : Nat) : Option T :=
  match i with
  | 0 => b.b0
  | 1 => b.b1
  | 2 => b.b2
  | _ => none

/-- Write slot `i` (Rust `buckets[i].replace(..)`; the previous
content is returned separately via `get`). -/
def set (b : Buckets T) (i : Nat) (v : Option T) : Buckets T :=
  match i with
  | 0 => { b with b0 := v }
  | 1 => { b with b1 := v }
  | 2 => { b with b2 := v }
  | _ => b

/-- The multiset held by one slot: empty when uninitialized. -/
def optMS (o : Option T) : Multiset T :=
  match o with
  | none => 0
  | some v => {v}

/-- The multiset of live (initialized) values across the three slots. -/
def liveMS (b : Buckets T) : Multiset T :=
  optMS b.b0 + optMS b.b1 + optMS b.b2

end Buckets

/-- State of an unsplit `MontyHall<T>`: the three buckets plus the
packed `bucket_info` word. -/
structure MontyHall (T : Type) where
  buckets : Buckets T
  bucket_info : BucketInfo
deriving Repr, DecidableEq

/-- `MontyHall::new(value)`: slot 0 holds the value, slots 1 and 2 are
uninitialized, `acquired = u8::MAX`, `canonical = 0`. -/
def MontyHall.new {T : Type} (value : T) : MontyHall T :=
  { buckets := { b0 := some value, b1 := none, b2 := none }
    bucket_info := { acquired := u8MAX, canonical := 0 } }

/-- A sequential execution state: the channel itself, the slot index
pinned by the outstanding `MontyHallHandle` (if any; the handle's
`acquired` field), and the ghost list of values destroyed so far. -/
structure MHState (T : Type) where
  mh : MontyHall T
  handle : Option Nat
  destroyed : List T
deriving Repr, DecidableEq

/-- Initial state: a freshly constructed channel, no handle, nothing
destroyed. -/
def MHState.init {T : Type} (value : T) : MHState T :=
  { mh := MontyHall.new value, handle := none, destroyed := [] }

/-- The metadata transition of `MontyHall::load`'s `fetch_update`
closure: `acquired := canonical`. -/
def loadInfoUpdate (info : BucketInfo) : BucketInfo :=
  { info with acquired := info.canonical }

/-- The metadata transition of `MontyHallHandle::drop`'s
`fetch_update` closure: `acquired := u8::MAX`. -/
def releaseInfoUpdate (info : BucketInfo) : BucketInfo :=
  { info with acquired := u8MAX }

/-- The metadata transition of `MontyHall::store`'s `fetch_update`
closure: `canonical := write_bucket`. -/
def storeInfoUpdate (wb : Nat) (info : BucketInfo) : BucketInfo :=
  { info with canonical := wb }

/-- `MontyHall::store(value)`: pick `write_bucket`, write the value
there, swap `canonical` to it, and if the previous metadata had
`acquired != canonical` (no handle pins the superseded canonical
slot), destroy the previous canonical slot's value.  `none` models a
panic (index out of range) or `assume_init` on an uninitialized slot —
both unreachable, see `mhInv_run`. -/
def stepStore {T : Type} (s : MHState T) (value : T) : Option (MHState T) :=
  let wb := writeBucket s.mh.bucket_info
  if wb < 3 then
    let bks1 := s.mh.buckets.set wb (some value)
    let old := s.mh.bucket_info
    let info1 := storeInfoUpdate wb old
    if old.acquired = old.canonical then
      some { mh := { buckets := bks1, bucket_info := info1 },
             handle := s.handle, destroyed := s.destroyed }
    else
      match bks1.get old.canonical with
      | some w =>
          some { mh := { buckets := bks1.set old.canonical none,
                         bucket_info := info1 },
                 handle := s.handle, destroyed := w :: s.destroyed }
      | none => none
  else none

/-- `MontyHall::load()`: swap `acquired` to the current `canonical`,
return a handle pinned to the previous `canonical` index.  The
one-outstanding-handle contract (enforced by Rust borrows) makes a
second `load` before release impossible: `none`. -/
def stepLoad {T : Type} (s : MHState T) : Option (MHState T) :=
  match s.handle with
  | some _ => none
  | none =>
    let old := s.mh.bucket_info
    some { mh := { buckets := s.mh.buckets,
                   bucket_info := loadInfoUpdate old },
           handle := some old.canonical, destroyed := s.destroyed }

/-- `MontyHallHandle::drop`: take the pinned slot's value out, reset
`acquired` to `u8::MAX`, and destroy the value exactly when the
previous metadata had `acquired != canonical` (the slot was superseded
while pinned).  Otherwise the value stays live in its slot (the code
moves it through a `ManuallyDrop` without running its destructor, and
the slot's bytes still hold it, so observably the canonical slot keeps
its value). -/
def stepRelease {T : Type} (s : MHState T) : Option (MHState T) :=
  match s.handle with
  | none => none
  | some h =>
    match s.mh.buckets.get h with
    | none => none
    | some w =>
      let old := s.mh.bucket_info
      let info1 := releaseInfoUpdate old
      if old.acquired = old.canonical then
        some { mh := { buckets := s.mh.buckets, bucket_info := info1 },
               handle := none, destroyed := s.destroyed }
      else
        some { mh := { buckets := s.mh.buckets.set h none,
                       bucket_info := info1 },
               handle := none, destroyed := w :: s.destroyed }

/-- `impl Drop for MontyHall`: teardown destroys exactly the canonical
slot's value.  Returns the full list of destroyed values (teardown's
victim consed onto the ghost list); `none` models `assume_init` on an
uninitialized canonical slot (unreachable). -/
def stepTeardown {T : Type} (s : MHState T) : Option (List T) :=
  match s.mh.buckets.get s.mh.bucket_info.canonical with
  | some w => some (w :: s.destroyed)
  | none => none

/-- `Deref for MontyHallHandle`: the value the outstanding handle
observes (`*handle` reads `buckets[self.acquired]`). -/
def handleView {T : Type} (s : MHState T) : Option T :=
  match s.handle with
  | none => none
  | some h => s.mh.buckets.get h

/-- One sequential operation on the triple buffer. -/
inductive MHOp (T : Type) where
  | store : T → MHOp T
  | load : MHOp T
  | release : MHOp T
deriving Repr, DecidableEq

/-- Run one operation. -/
def mhStep {T : Type} (s : MHState T) : MHOp T → Option (MHState T)
  | MHOp.store v => stepStore s v
  | MHOp.load => stepLoad s
  | MHOp.release => stepRelease s

/-- Run a list of operations left to right, getting stuck (`none`) on
any contract violation. -/
def mhRun {T : Type} (s : MHState T) : List (MHOp T) → Option (MHState T)
  | [] => some s
  | op :: ops =>
    match mhStep s op with
    | some s1 => mhRun s1 ops
    | none => none

/-- All values ever stored into the channel: the construction value
plus every `store` argument, in order. -/
def storedVals {T : Type} (value : T) (ops : List (MHOp T)) : List T :=
  value :: ops.filterMap fun op =>
    match op with
    | MHOp.store w => some w
    | _ => none

/-- The protocol invariant of reachable states: `canonical` is a real
slot holding a live value; the handle bookkeeping matches `acquired`
(`u8::MAX` iff no handle, otherwise the pinned slot, which is live);
and no other slot is live. -/
def MHInv {T : Type} (s : MHState T) : Prop :=
  s.mh.bucket_info.canonical < 3 ∧
  (s.mh.buckets.get s.mh.bucket_info.canonical).isSome ∧
  (match s.handle with
   | none => s.mh.bucket_info.acquired = u8MAX
   | some h => h < 3 ∧ s.mh.bucket_info.acquired = h ∧
       (s.mh.buckets.get h).isSome) ∧
  (∀ i, i < 3 → (s.mh.buckets.get i).isSome →
    i = s.mh.bucket_info.canonical ∨ s.handle = some i)

/-! ## Helper lemmas about buckets and slot selection -/

lemma Buckets.get_set_self {T : Type} (b : Buckets T) (i : Nat)
    (hi : i < 3) (v : Option T) : (b.set i v).get i = v := by
  interval_cases i <;> rfl

lemma Buckets.get_set_ne {T : Type} (b : Buckets T) (i j : Nat)
    (hne : i ≠ j) (v : Option T) : (b.set i v).get j = b.get j := by
  rcases i with _ | _ | _ | i <;> rcases j with _ | _ | _ | j <;>
    simp_all [Buckets.set, Buckets.get]

lemma Buckets.liveMS_set_some {T : Type} (b : Buckets T) (i : Nat)
    (v : T) (hi : i < 3) (h : b.get i = none) :
    (b.set i (some v)).liveMS = {v} + b.liveMS := by
  interval_cases i <;>
    simp only [Buckets.liveMS, Buckets.set, Buckets.get] at h ⊢ <;>
      rw [h] <;> simp only [Buckets.optMS] <;> abel

lemma Buckets.liveMS_set_none {T : Type} (b : Buckets T) (i : Nat)
    (w : T) (hi : i < 3) (h : b.get i = some w) :
    b.liveMS = {w} + (b.set i none).liveMS := by
  interval_cases i <;>
    simp only [Buckets.liveMS, Buckets.set, Buckets.get] at h ⊢ <;>
      rw [h] <;> simp only [Buckets.optMS] <;> abel

lemma Buckets.liveMS_single {T : Type} (b : Buckets T) (j : Nat)
    (w : T) (hj : j < 3) (h : b.get j = some w)
    (hnone : ∀ i, i < 3 → i ≠ j → b.get i = none) :
    b.liveMS = {w} := by
  interval_cases j
  · have e1 := hnone 1 (by norm_num) (by norm_num)
    have e2 := hnone 2 (by norm_num) (by norm_num)
    simp_all [Buckets.liveMS, Buckets.get, Buckets.optMS]
  · have e1 := hnone 0 (by norm_num) (by norm_num)
    have e2 := hnone 2 (by norm_num) (by norm_num)
    simp_all [Buckets.liveMS, Buckets.get, Buckets.optMS]
  · have e1 := hnone 0 (by norm_num) (by norm_num)
    have e2 := hnone 1 (by norm_num) (by norm_num)
    simp_all [Buckets.liveMS, Buckets.get, Buckets.optMS]

/-- Specification of `write_bucket` in the form the invariant proof
needs: the chosen slot is real, differs from `canonical`, and differs
from `acquired` whenever `acquired` is a real slot. -/
lemma writeBucket_free (a c : Nat) (ha : a = u8MAX ∨ a < 3) (hc : c < 3) :
    writeBucket ⟨a, c⟩ < 3 ∧ writeBucket ⟨a, c⟩ ≠ c ∧
    (a < 3 → writeBucket ⟨a, c⟩ ≠ a) := by
  rcases ha with rfl | ha
  · interval_cases c <;> decide
  · interval_cases a <;> interval_cases c <;> decide

/-! ## Characterizations of the step functions -/

lemma stepLoad_eq {T : Type} {s s1 : MHState T} (hh : s.handle = none)
    (h : stepLoad s = some s1) :
    s1 = { mh := { buckets := s.mh.buckets,
                   bucket_info := loadInfoUpdate s.mh.bucket_info },
           handle := some s.mh.bucket_info.canonical,
           destroyed := s.destroyed } := by
  simp only [stepLoad, hh] at h
  exact (Option.some.inj h).symm

lemma stepRelease_eq_canonical {T : Type} {s s1 : MHState T} {h0 : Nat}
    {w : T} (hh : s.handle = some h0)
    (hw : s.mh.buckets.get h0 = some w)
    (heq : s.mh.bucket_info.acquired = s.mh.bucket_info.canonical)
    (h : stepRelease s = some s1) :
    s1 = { mh := { buckets := s.mh.buckets,
                   bucket_info := releaseInfoUpdate s.mh.bucket_info },
           handle := none, destroyed := s.destroyed } := by
  simp only [stepRelease, hh, hw] at h
  rw [if_pos heq] at h
  exact (Option.some.inj h).symm

lemma stepRelease_eq_stale {T : Type} {s s1 : MHState T} {h0 : Nat}
    {w : T} (hh : s.handle = some h0)
    (hw : s.mh.buckets.get h0 = some w)
    (hne : s.mh.bucket_info.acquired ≠ s.mh.bucket_info.canonical)
    (h : stepRelease s = some s1) :
    s1 = { mh := { buckets := s.mh.buckets.set h0 none,
                   bucket_info := releaseInfoUpdate s.mh.bucket_info },
           handle := none, destroyed := w :: s.destroyed } := by
  simp only [stepRelease, hh, hw] at h
  rw [if_neg hne] at h
  exact (Option.some.inj h).symm

lemma stepStore_eq_pinned {T : Type} {s s1 : MHState T} {v : T}
    (hwb3 : writeBucket s.mh.bucket_info < 3)
    (heq : s.mh.bucket_info.acquired = s.mh.bucket_info.canonical)
    (h : stepStore s v = some s1) :
    s1 = { mh := { buckets :=
                     s.mh.buckets.set (writeBucket s.mh.bucket_info)
                       (some v),
                   bucket_info :=
                     storeInfoUpdate (writeBucket s.mh.bucket_info)
                       s.mh.bucket_info },
           handle := s.handle, destroyed := s.destroyed } := by
  simp only [stepStore] at h
  rw [if_pos hwb3, if_pos heq] at h
  exact (Option.some.inj h).symm

lemma stepStore_eq_unpinned {T : Type} {s s1 : MHState T} {v w : T}
    (hwb3 : writeBucket s.mh.bucket_info < 3)
    (hne : s.mh.bucket_info.acquired ≠ s.mh.bucket_info.canonical)
    (hw : (s.mh.buckets.set (writeBucket s.mh.bucket_info)
        (some v)).get s.mh.bucket_info.canonical = some w)
    (h : stepStore s v = some s1) :
    s1 = { mh := { buckets :=
                     (s.mh.buckets.set (writeBucket s.mh.bucket_info)
                       (some v)).set s.mh.bucket_info.canonical none,
                   bucket_info :=
                     storeInfoUpdate (writeBucket s.mh.bucket_info)
                       s.mh.bucket_info },
           handle := s.handle, destroyed := w :: s.destroyed } := by
  simp only [stepStore] at h
  rw [if_pos hwb3, if_neg hne, hw] at h
  exact (Option.some.inj h).symm

/-! ## Invariant preservation -/

lemma writeBucket_spec (info : BucketInfo)
    (ha : info.acquired = u8MAX ∨ info.acquired < 3)
    (hc : info.canonical < 3) :
    writeBucket info < 3 ∧ writeBucket info ≠ info.canonical ∧
    (info.acquired < 3 → writeBucket info ≠ info.acquired) := by
  obtain ⟨a, c⟩ := info
  simp only at ha hc ⊢
  rcases ha with rfl | ha
  · interval_cases c <;> decide
  · interval_cases a <;> interval_cases c <;> decide

/-- The acquired field of an invariant-satisfying state is either the
sentinel or a real slot. -/
lemma MHInv.acquired_shape {T : Type} {s : MHState T} (hinv : MHInv s) :
    s.mh.bucket_info.acquired = u8MAX ∨ s.mh.bucket_info.acquired < 3 := by
  obtain ⟨-, -, hhand, -⟩ := hinv
  cases hh : s.handle with
  | none => rw [hh] at hhand; exact Or.inl hhand
  | some h0 => rw [hh] at hhand; exact Or.inr (hhand.2.1 ▸ hhand.1)

/-- The write bucket of an invariant-satisfying state is empty. -/
lemma MHInv.writeBucket_empty {T : Type} {s : MHState T}
    (hinv : MHInv s) :
    s.mh.buckets.get (writeBucket s.mh.bucket_info) = none := by
  obtain ⟨hwb3, hwbc, hwba⟩ :=
    writeBucket_spec s.mh.bucket_info hinv.acquired_shape hinv.1
  obtain ⟨-, -, hhand, hD⟩ := hinv
  by_contra hne
  have hs : (s.mh.buckets.get (writeBucket s.mh.bucket_info)).isSome := by
    cases hg : s.mh.buckets.get (writeBucket s.mh.bucket_info) with
    | none => exact absurd hg hne
    | some _ => rfl
  rcases hD _ hwb3 hs with hcan | hhdl
  · exact hwbc hcan
  · cases hh : s.handle with
    | none => rw [hh] at hhdl; cases hhdl
    | some h0 =>
        rw [hh] at hhand hhdl
        have hwbh : writeBucket s.mh.bucket_info = h0 :=
          (Option.some.inj hhdl).symm
        exact hwba (hhand.2.1 ▸ hhand.1) (hwbh.trans hhand.2.1.symm)

lemma stepLoad_inv {T : Type} {s s1 : MHState T} (hinv : MHInv s)
    (h : stepLoad s = some s1) :
    MHInv s1 ∧ s1.destroyed = s.destroyed ∧
      s1.mh.buckets = s.mh.buckets := by
  cases hh : s.handle with
  | some h0 => simp [stepLoad, hh] at h
  | none =>
    obtain rfl := stepLoad_eq hh h
    obtain ⟨hc3, hlive, hhand, hD⟩ := hinv
    refine ⟨⟨hc3, hlive, ⟨hc3, rfl, hlive⟩, ?_⟩, rfl, rfl⟩
    intro i hi hs
    rcases hD i hi hs with hcan | hhdl
    · exact Or.inr (by rw [hcan])
    · rw [hh] at hhdl; cases hhdl

lemma stepRelease_inv {T : Type} {s s1 : MHState T} (hinv : MHInv s)
    (h : stepRelease s = some s1) :
    MHInv s1 ∧
      (s1.destroyed : Multiset T) + s1.mh.buckets.liveMS =
        (s.destroyed : Multiset T) + s.mh.buckets.liveMS := by
  cases hh : s.handle with
  | none => simp [stepRelease, hh] at h
  | some h0 =>
    obtain ⟨hc3, hlive, hhand, hD⟩ := hinv
    rw [hh] at hhand
    obtain ⟨h03, hacq, hsome⟩ := hhand
    obtain ⟨w, hw⟩ := Option.isSome_iff_exists.mp hsome
    by_cases heq : s.mh.bucket_info.acquired = s.mh.bucket_info.canonical
    · obtain rfl := stepRelease_eq_canonical hh hw heq h
      refine ⟨⟨hc3, hlive, rfl, ?_⟩, rfl⟩
      intro i hi hs
      show i = s.mh.bucket_info.canonical ∨ _
      rcases hD i hi hs with hcan | hhdl
      · exact Or.inl hcan
      · rw [hh] at hhdl
        refine Or.inl ?_
        rw [← Option.some.inj hhdl, ← hacq, heq]
    · obtain rfl := stepRelease_eq_stale hh hw heq h
      have hh0c : h0 ≠ s.mh.bucket_info.canonical := fun hc =>
        heq (hacq.trans hc)
      constructor
      · refine ⟨hc3, ?_, rfl, ?_⟩
        · show ((s.mh.buckets.set h0 none).get
            s.mh.bucket_info.canonical).isSome = true
          rw [Buckets.get_set_ne _ _ _ hh0c]
          exact hlive
        · intro i hi hs
          show i = s.mh.bucket_info.canonical ∨ _
          have hs2 : ((s.mh.buckets.set h0 none).get i).isSome = true := hs
          by_cases hih : i = h0
          · rw [hih, Buckets.get_set_self _ _ h03] at hs2
            cases hs2
          · rw [Buckets.get_set_ne _ _ _ fun he => hih he.symm] at hs2
            rcases hD i hi hs2 with hcan | hhdl
            · exact Or.inl hcan
            · rw [hh] at hhdl
              exact absurd (Option.some.inj hhdl).symm hih
      · show (↑(w :: s.destroyed) : Multiset T) +
          (s.mh.buckets.set h0 none).liveMS =
            (s.destroyed : Multiset T) + s.mh.buckets.liveMS
        have hsplit := Buckets.liveMS_set_none s.mh.buckets h0 w h03 hw
        rw [hsplit]
        simp only [← Multiset.cons_coe, ← Multiset.singleton_add]
        abel

lemma stepStore_inv {T : Type} {s s1 : MHState T} {v : T} (hinv : MHInv s)
    (h : stepStore s v = some s1) :
    MHInv s1 ∧
      (s1.destroyed : Multiset T) + s1.mh.buckets.liveMS =
        {v} + ((s.destroyed : Multiset T) + s.mh.buckets.liveMS) ∧
      s1.handle = s.handle ∧
      (∀ h0, s.handle = some h0 →
        s1.mh.buckets.get h0 = s.mh.buckets.get h0 ∧
        s1.mh.bucket_info.canonical ≠ h0) ∧
      s1.mh.buckets.get s1.mh.bucket_info.canonical = some v := by
  have hashape := hinv.acquired_shape
  have hempty := hinv.writeBucket_empty
  obtain ⟨hc3, hlive, hhand, hD⟩ := hinv
  obtain ⟨hwb3, hwbc, hwba⟩ := writeBucket_spec s.mh.bucket_info hashape hc3
  by_cases heq : s.mh.bucket_info.acquired = s.mh.bucket_info.canonical
  · obtain rfl := stepStore_eq_pinned hwb3 heq h
    cases hh : s.handle with
    | none =>
        exfalso
        rw [hh] at hhand
        rw [hhand] at heq
        simp only [u8MAX] at heq
        omega
    | some h0 =>
        rw [hh] at hhand
        obtain ⟨h03, hacq, hsome⟩ := hhand
        have haclt : s.mh.bucket_info.acquired < 3 := by
          rw [hacq]; exact h03
        have hwbh : writeBucket s.mh.bucket_info ≠ h0 := by
          intro he
          exact hwba haclt (he.trans hacq.symm)
        refine ⟨⟨hwb3, ?_, ?_, ?_⟩, ?_, rfl, ?_, ?_⟩
        · show ((s.mh.buckets.set (writeBucket s.mh.bucket_info)
            (some v)).get (writeBucket s.mh.bucket_info)).isSome = true
          rw [Buckets.get_set_self _ _ hwb3]
          rfl
        · show h0 < 3 ∧ s.mh.bucket_info.acquired = h0 ∧
            ((s.mh.buckets.set (writeBucket s.mh.bucket_info)
              (some v)).get h0).isSome = true
          refine ⟨h03, hacq, ?_⟩
          rw [Buckets.get_set_ne _ _ _ hwbh]
          exact hsome
        · intro i hi hs
          show i = writeBucket s.mh.bucket_info ∨ some h0 = some i
          by_cases hiwb : i = writeBucket s.mh.bucket_info
          · exact Or.inl hiwb
          · have hs2 : (s.mh.buckets.get i).isSome = true := by
              have hs3 : ((s.mh.buckets.set
                  (writeBucket s.mh.bucket_info) (some v)).get i).isSome =
                  true := hs
              rw [Buckets.get_set_ne _ _ _
                fun he => hiwb he.symm] at hs3
              exact hs3
            rcases hD i hi hs2 with hcan | hhdl
            · refine Or.inr ?_
              have hih0 : i = h0 := by rw [hcan, ← heq, hacq]
              rw [hih0]
            · rw [← hh]
              exact Or.inr hhdl
        · show (s.destroyed : Multiset T) +
            (s.mh.buckets.set (writeBucket s.mh.bucket_info)
              (some v)).liveMS =
            {v} + ((s.destroyed : Multiset T) + s.mh.buckets.liveMS)
          rw [Buckets.liveMS_set_some _ _ _ hwb3 hempty]
          abel
        · intro h0' hh'
          have hh0 : h0 = h0' := Option.some.inj hh'
          subst hh0
          constructor
          · rw [Buckets.get_set_ne _ _ _ hwbh]
          · exact hwbh
        · show (s.mh.buckets.set (writeBucket s.mh.bucket_info)
            (some v)).get (writeBucket s.mh.bucket_info) = some v
          rw [Buckets.get_set_self _ _ hwb3]
  · obtain ⟨w0, hw0⟩ := Option.isSome_iff_exists.mp hlive
    have hcwb : s.mh.bucket_info.canonical ≠
        writeBucket s.mh.bucket_info := fun he => hwbc he.symm
    have hw1 : (s.mh.buckets.set (writeBucket s.mh.bucket_info)
        (some v)).get s.mh.bucket_info.canonical = some w0 := by
      rw [Buckets.get_set_ne _ _ _ hwbc]
      exact hw0
    obtain rfl := stepStore_eq_unpinned hwb3 heq hw1 h
    have hsplit1 := Buckets.liveMS_set_some s.mh.buckets
      (writeBucket s.mh.bucket_info) v hwb3 hempty
    have hsplit2 := Buckets.liveMS_set_none
      (s.mh.buckets.set (writeBucket s.mh.bucket_info) (some v))
      s.mh.bucket_info.canonical w0 hc3 hw1
    have hkey : ({w0} : Multiset T) +
        ((s.mh.buckets.set (writeBucket s.mh.bucket_info)
          (some v)).set s.mh.bucket_info.canonical none).liveMS =
        {v} + s.mh.buckets.liveMS := hsplit2.symm.trans hsplit1
    refine ⟨⟨hwb3, ?_, ?_, ?_⟩, ?_, rfl, ?_, ?_⟩
    · show (((s.mh.buckets.set (writeBucket s.mh.bucket_info)
        (some v)).set s.mh.bucket_info.canonical none).get
          (writeBucket s.mh.bucket_info)).isSome = true
      rw [Buckets.get_set_ne _ _ _ hcwb,
        Buckets.get_set_self _ _ hwb3]
      rfl
    · show (match s.handle with
        | none => s.mh.bucket_info.acquired = u8MAX
        | some h0 => h0 < 3 ∧ s.mh.bucket_info.acquired = h0 ∧
            (((s.mh.buckets.set (writeBucket s.mh.bucket_info)
              (some v)).set s.mh.bucket_info.canonical none).get
                h0).isSome)
      cases hh : s.handle with
      | none => rw [hh] at hhand; exact hhand
      | some h0 =>
          rw [hh] at hhand
          obtain ⟨h03, hacq, hsome⟩ := hhand
          refine ⟨h03, hacq, ?_⟩
          have hh0c : h0 ≠ s.mh.bucket_info.canonical := by
            intro he
            exact heq (hacq.trans he)
          have haclt : s.mh.bucket_info.acquired < 3 := by
            rw [hacq]; exact h03
          have hh0wb : writeBucket s.mh.bucket_info ≠ h0 := by
            intro he
            exact hwba haclt (he.trans hacq.symm)
          rw [Buckets.get_set_ne _ _ _ (Ne.symm hh0c),
            Buckets.get_set_ne _ _ _ hh0wb]
          exact hsome
    · intro i hi hs
      show i = writeBucket s.mh.bucket_info ∨ s.handle = some i
      have hs2 : (((s.mh.buckets.set (writeBucket s.mh.bucket_info)
          (some v)).set s.mh.bucket_info.canonical none).get
            i).isSome = true := hs
      by_cases hican : i = s.mh.bucket_info.canonical
      · rw [hican, Buckets.get_set_self _ _ hc3] at hs2
        cases hs2
      · rw [Buckets.get_set_ne _ _ _
          fun he => hican he.symm] at hs2
        by_cases hiwb : i = writeBucket s.mh.bucket_info
        · exact Or.inl hiwb
        · rw [Buckets.get_set_ne _ _ _
            fun he => hiwb he.symm] at hs2
          rcases hD i hi hs2 with hcan | hhdl
          · exact absurd hcan hican
          · exact Or.inr hhdl
    · show (↑(w0 :: s.destroyed) : Multiset T) +
        ((s.mh.buckets.set (writeBucket s.mh.bucket_info)
          (some v)).set s.mh.bucket_info.canonical none).liveMS =
        {v} + ((s.destroyed : Multiset T) + s.mh.buckets.liveMS)
      simp only [← Multiset.cons_coe, ← Multiset.singleton_add]
      calc ({w0} : Multiset T) + ↑s.destroyed +
          ((s.mh.buckets.set (writeBucket s.mh.bucket_info)
            (some v)).set s.mh.bucket_info.canonical none).liveMS
          = ↑s.destroyed + (({w0} : Multiset T) +
            ((s.mh.buckets.set (writeBucket s.mh.bucket_info)
              (some v)).set s.mh.bucket_info.canonical
                none).liveMS) := by abel
        _ = ↑s.destroyed + ({v} + s.mh.buckets.liveMS) := by rw [hkey]
        _ = {v} + (↑s.destroyed + s.mh.buckets.liveMS) := by abel
    · intro h0 hh
      rw [hh] at hhand
      obtain ⟨h03, hacq, hsome⟩ := hhand
      have hh0c : h0 ≠ s.mh.bucket_info.canonical := by
        intro he
        exact heq (hacq.trans he)
      have haclt : s.mh.bucket_info.acquired < 3 := by
        rw [hacq]; exact h03
      have hh0wb : writeBucket s.mh.bucket_info ≠ h0 := by
        intro he
        exact hwba haclt (he.trans hacq.symm)
      constructor
      · show ((s.mh.buckets.set (writeBucket s.mh.bucket_info)
          (some v)).set s.mh.bucket_info.canonical none).get h0 =
            s.mh.buckets.get h0
        rw [Buckets.get_set_ne _ _ _ (Ne.symm hh0c),
          Buckets.get_set_ne _ _ _ hh0wb]
      · show writeBucket s.mh.bucket_info ≠ h0
        exact hh0wb
    · show ((s.mh.buckets.set (writeBucket s.mh.bucket_info)
        (some v)).set s.mh.bucket_info.canonical none).get
          (writeBucket s.mh.bucket_info) = some v
      rw [Buckets.get_set_ne _ _ _ hcwb,
        Buckets.get_set_self _ _ hwb3]

/-- The multiset of values an operation stores. -/
def opMS {T : Type} : MHOp T → Multiset T
  | MHOp.store v => {v}
  | MHOp.load => 0
  | MHOp.release => 0

/-- The multiset of values a list of operations stores. -/
def opsMS {T : Type} (ops : List (MHOp T)) : Multiset T :=
  (ops.map opMS).sum

lemma mhStep_inv {T : Type} {s s1 : MHState T} {op : MHOp T}
    (hinv : MHInv s) (h : mhStep s op = some s1) :
    MHInv s1 ∧
      (s1.destroyed : Multiset T) + s1.mh.buckets.liveMS =
        opMS op + ((s.destroyed : Multiset T) + s.mh.buckets.liveMS) := by
  cases op with
  | store v =>
      obtain ⟨hinv1, hacc, -, -, -⟩ := stepStore_inv hinv h
      exact ⟨hinv1, hacc⟩
  | load =>
      obtain ⟨hinv1, hdes, hbks⟩ := stepLoad_inv hinv h
      refine ⟨hinv1, ?_⟩
      rw [hdes, hbks]
      simp [opMS]
  | release =>
      obtain ⟨hinv1, hacc⟩ := stepRelease_inv hinv h
      refine ⟨hinv1, ?_⟩
      rw [hacc]
      simp [opMS]

lemma mhRun_inv {T : Type} :
    ∀ (ops : List (MHOp T)) (s c : MHState T), MHInv s →
      mhRun s ops = some c →
      MHInv c ∧
        (c.destroyed : Multiset T) + c.mh.buckets.liveMS =
          opsMS ops + ((s.destroyed : Multiset T) + s.mh.buckets.liveMS)
  | [], s, c, hinv, h => by
      obtain rfl : s = c := Option.some.inj h
      simp [opsMS]
      exact hinv
  | op :: ops, s, c, hinv, h => by
      cases hs : mhStep s op with
      | none => rw [mhRun, hs] at h; cases h
      | some s1 =>
          rw [mhRun, hs] at h
          obtain ⟨hinv1, hacc1⟩ := mhStep_inv hinv hs
          obtain ⟨hinvc, hacc2⟩ := mhRun_inv ops s1 c hinv1 h
          refine ⟨hinvc, ?_⟩
          rw [hacc2, hacc1]
          show _ = opsMS (op :: ops) + _
          simp only [opsMS, List.map_cons, List.sum_cons]
          abel

lemma MHInv_init {T : Type} (value : T) : MHInv (MHState.init value) := by
  refine ⟨show (0 : Nat) < 3 by decide, rfl, rfl, ?_⟩
  intro i hi hs
  interval_cases i
  · exact Or.inl rfl
  · cases hs
  · cases hs

lemma liveMS_init {T : Type} (value : T) :
    (MHState.init value).mh.buckets.liveMS = {value} := by
  simp [MHState.init, MontyHall.new, Buckets.liveMS, Buckets.optMS]

/-- The coercion of `storedVals` splits into the initial value and the
per-operation stored multisets. -/
lemma storedVals_coe {T : Type} (value : T) (ops : List (MHOp T)) :
    ((storedVals value ops : List T) : Multiset T) = {value} + opsMS ops := by
  rw [storedVals]
  simp only [← Multiset.cons_coe, ← Multiset.singleton_add]
  congr 1
  induction ops with
  | nil => simp [opsMS]
  | cons op ops ih =>
      cases op with
      | store w =>
          simp only [List.filterMap_cons, opsMS, List.map_cons,
            List.sum_cons, opMS, ← Multiset.cons_coe,
            ← Multiset.singleton_add] at ih ⊢
          rw [ih]
      | load =>
          simp only [List.filterMap_cons, opsMS, List.map_cons,
            List.sum_cons, opMS, zero_add] at ih ⊢
          exact ih
      | release =>
          simp only [List.filterMap_cons, opsMS, List.map_cons,
            List.sum_cons, opMS, zero_add] at ih ⊢
          exact ih

/-- C1: in every sequential execution respecting the
one-outstanding-handle contract, each value ever stored into a slot
(the construction value and every `store` argument) is destroyed
exactly once: the multiset of values destroyed by stores, handle
releases and the final owner teardown equals the multiset of stored
values. -/
theorem monty_destroy_exactly_once {T : Type} (value : T)
    (ops : List (MHOp T)) (c : MHState T) (final : List T)
    (hrun : mhRun (MHState.init value) ops = some c)
    (hhand : c.handle = none)
    (htear : stepTeardown c = some final) :
    (final : Multiset T) = ((storedVals value ops : List T) : Multiset T) := by
  obtain ⟨hinvc, hacc⟩ := mhRun_inv ops _ c (MHInv_init value) hrun
  obtain ⟨hc3, hlive, hhm, hD⟩ := hinvc
  obtain ⟨w, hw⟩ := Option.isSome_iff_exists.mp hlive
  have hfinal : final = w :: c.destroyed := by
    rw [stepTeardown, hw] at htear
    exact (Option.some.inj htear).symm
  have hnone : ∀ i, i < 3 → i ≠ c.mh.bucket_info.canonical →
      c.mh.buckets.get i = none := by
    intro i hi hne
    cases hg : c.mh.buckets.get i with
    | none => rfl
    | some x =>
        have hs : (c.mh.buckets.get i).isSome = true := by rw [hg]; rfl
        rcases hD i hi hs with hcan | hhdl
        · exact absurd hcan hne
        · rw [hhand] at hhdl; cases hhdl
  have hsingle := Buckets.liveMS_single c.mh.buckets _ w hc3 hw hnone
  rw [hsingle, liveMS_init] at hacc
  have hdinit : ((MHState.init value).destroyed : Multiset T) = 0 := rfl
  rw [hdinit, zero_add] at hacc
  rw [hfinal, storedVals_coe]
  simp only [← Multiset.cons_coe, ← Multiset.singleton_add]
  calc ({w} : Multiset T) + ↑c.destroyed
      = (c.destroyed : Multiset T) + {w} := by abel
    _ = opsMS ops + {value} := hacc
    _ = {value} + opsMS ops := by abel

/-- C1 witness: initial value 10, then load, store 20, release; the
release destroys 10, teardown destroys 20 — together, each stored
value exactly once. -/
theorem monty_destroy_exactly_once_witness :
    (([20, 10] : List Nat) : Multiset Nat) =
      ((storedVals 10 [MHOp.load, MHOp.store 20, MHOp.release] :
        List Nat) : Multiset Nat) :=
  monty_destroy_exactly_once 10 [MHOp.load, MHOp.store 20, MHOp.release]
    { mh := { buckets := { b0 := none, b1 := some 20, b2 := none },
              bucket_info := { acquired := u8MAX, canonical := 1 } },
      handle := none, destroyed := [10] }
    [20, 10] rfl rfl rfl

/-- C2: in every reachable state the canonical slot holds a live
value, and releasing a handle whose pinned index equals the canonical
index destroys nothing and leaves the canonical slot's live value in
place (so teardown, which destroys exactly the canonical slot, is
valid). -/
theorem monty_canonical_live {T : Type} (value : T) (ops : List (MHOp T))
    (c : MHState T) (hrun : mhRun (MHState.init value) ops = some c) :
    (c.mh.buckets.get c.mh.bucket_info.canonical).isSome = true ∧
    (∀ h0 c2, c.handle = some h0 →
      h0 = c.mh.bucket_info.canonical →
      stepRelease c = some c2 →
      c2.mh.buckets = c.mh.buckets ∧ c2.destroyed = c.destroyed ∧
      c2.mh.bucket_info.canonical = c.mh.bucket_info.canonical ∧
      (c2.mh.buckets.get c2.mh.bucket_info.canonical).isSome = true) := by
  obtain ⟨hinvc, -⟩ := mhRun_inv ops _ c (MHInv_init value) hrun
  obtain ⟨hc3, hlive, hhm, hD⟩ := hinvc
  refine ⟨hlive, ?_⟩
  intro h0 c2 hh hcan hrel
  rw [hh] at hhm
  obtain ⟨h03, hacq, hsome⟩ := hhm
  obtain ⟨w, hw⟩ := Option.isSome_iff_exists.mp hsome
  have heq : c.mh.bucket_info.acquired = c.mh.bucket_info.canonical := by
    rw [hacq, hcan]
  obtain rfl := stepRelease_eq_canonical hh hw heq hrel
  exact ⟨rfl, rfl, rfl, hlive⟩

/-- C2 witness: initial value 5, one load; releasing the canonical
handle destroys nothing and the canonical slot stays live. -/
theorem monty_canonical_live_witness :
    ((({ mh := { buckets := { b0 := some 5, b1 := none, b2 := none },
                 bucket_info := { acquired := 0, canonical := 0 } },
         handle := some 0, destroyed := [] } : MHState Nat)).mh.buckets.get
      (({ mh := { buckets := { b0 := some 5, b1 := none, b2 := none },
                  bucket_info := { acquired := 0, canonical := 0 } },
          handle := some 0, destroyed := [] } :
            MHState Nat)).mh.bucket_info.canonical).isSome = true ∧
    ((({ mh := { buckets := { b0 := some 5, b1 := none, b2 := none },
                 bucket_info := { acquired := u8MAX, canonical := 0 } },
         handle := none, destroyed := [] } : MHState Nat)).mh.buckets =
      (({ mh := { buckets := { b0 := some 5, b1 := none, b2 := none },
                  bucket_info := { acquired := 0, canonical := 0 } },
          handle := some 0, destroyed := [] } : MHState Nat)).mh.buckets ∧
     (({ mh := { buckets := { b0 := some 5, b1 := none, b2 := none },
                 bucket_info := { acquired := u8MAX, canonical := 0 } },
         handle := none, destroyed := [] } : MHState Nat)).destroyed =
      (({ mh := { buckets := { b0 := some 5, b1 := none, b2 := none },
                  bucket_info := { acquired := 0, canonical := 0 } },
          handle := some 0, destroyed := [] } : MHState Nat)).destroyed ∧
     (({ mh := { buckets := { b0 := some 5, b1 := none, b2 := none },
                 bucket_info := { acquired := u8MAX, canonical := 0 } },
         handle := none, destroyed := [] } :
           MHState Nat)).mh.bucket_info.canonical =
      (({ mh := { buckets := { b0 := some 5, b1 := none, b2 := none },
                  bucket_info := { acquired := 0, canonical := 0 } },
          handle := some 0, destroyed := [] } :
            MHState Nat)).mh.bucket_info.canonical ∧
     ((({ mh := { buckets := { b0 := some 5, b1 := none, b2 := none },
                  bucket_info := { acquired := u8MAX, canonical := 0 } },
          handle := none, destroyed := [] } : MHState Nat)).mh.buckets.get
       (({ mh := { buckets := { b0 := some 5, b1 := none, b2 := none },
                   bucket_info := { acquired := u8MAX, canonical := 0 } },
           handle := none, destroyed := [] } :
             MHState Nat)).mh.bucket_info.canonical).isSome = true) :=
  ⟨(monty_canonical_live 5 [MHOp.load] _ rfl).1,
   (monty_canonical_live 5 [MHOp.load] _ rfl).2 0 _ rfl rfl rfl⟩

/-- Effect of a run of consecutive `store` calls on a state with an
outstanding handle: the handle and its pinned slot's value survive
untouched, and afterwards the canonical slot holds the last stored
value (or is unchanged if no store happened) and differs from the
pinned slot. -/
lemma mhRun_stores {T : Type} :
    ∀ (vs : List T) (s c : MHState T) (h0 : Nat) (u : T),
      MHInv s → s.handle = some h0 → s.mh.buckets.get h0 = some u →
      mhRun s (vs.map MHOp.store) = some c →
      MHInv c ∧ c.handle = some h0 ∧ c.mh.buckets.get h0 = some u ∧
      c.mh.buckets.get c.mh.bucket_info.canonical =
        (match vs.getLast? with
         | some w => some w
         | none => s.mh.buckets.get s.mh.bucket_info.canonical) ∧
      (vs ≠ [] → c.mh.bucket_info.canonical ≠ h0)
  | [], s, c, h0, u, hinv, hh, hu, hrun => by
      obtain rfl : s = c := Option.some.inj hrun
      exact ⟨hinv, hh, hu, rfl, fun hne => absurd rfl hne⟩
  | v :: vs, s, c, h0, u, hinv, hh, hu, hrun => by
      rw [List.map_cons, mhRun] at hrun
      cases hs : mhStep s (MHOp.store v) with
      | none => rw [hs] at hrun; cases hrun
      | some s1 =>
          rw [hs] at hrun
          obtain ⟨hinv1, -, hhd, hpres, hcanv⟩ := stepStore_inv hinv hs
          obtain ⟨hgu, hcne⟩ := hpres h0 hh
          have hh1 : s1.handle = some h0 := by rw [hhd, hh]
          have hu1 : s1.mh.buckets.get h0 = some u := by rw [hgu, hu]
          obtain ⟨hinvc, hch, hcu, hccan, hlast⟩ :=
            mhRun_stores vs s1 c h0 u hinv1 hh1 hu1 hrun
          cases hvs : vs with
          | nil =>
              obtain rfl : s1 = c := by
                rw [hvs] at hrun
                simpa [mhRun] using hrun
              refine ⟨hinvc, hch, hcu, ?_, fun _ => hcne⟩
              simp only [List.getLast?_singleton]
              exact hcanv
          | cons w vs2 =>
              refine ⟨hinvc, hch, hcu, ?_, fun _ => ?_⟩
              · rw [List.getLast?_cons_cons]
                obtain hz := List.getLast?_eq_getLast_of_ne_nil
                  (l := w :: vs2) (by simp)
                rw [hvs, hz] at hccan
                rw [hz]
                exact hccan
              · exact hlast (by rw [hvs]; simp)

/-- C5: starting from a channel constructed with 1, a handle obtained
by `load` observes 1, keeps observing 1 across any nonempty sequence
of `store` calls, and after releasing it a fresh `load` observes
exactly the most recent stored value. -/
theorem monty_snapshot (vs : List Nat) (hne : vs ≠ [])
    (c1 c2 c3 c4 : MHState Nat)
    (h1 : stepLoad (MHState.init 1) = some c1)
    (h2 : mhRun c1 (vs.map MHOp.store) = some c2)
    (h3 : stepRelease c2 = some c3)
    (h4 : stepLoad c3 = some c4) :
    handleView c1 = some 1 ∧ handleView c2 = some 1 ∧
    handleView c4 = vs.getLast? := by
  obtain ⟨hinv1, -, -⟩ := stepLoad_inv (MHInv_init 1) h1
  obtain rfl := stepLoad_eq (s := MHState.init 1) rfl h1
  obtain ⟨hinv2, hch, hcu, hccan, hlast⟩ :=
    mhRun_stores vs _ c2 0 1 hinv1 rfl rfl h2
  have hv2 : handleView c2 = some 1 := by
    unfold handleView
    rw [hch]
    exact hcu
  obtain ⟨hc3c2, hlivec2, hhmc2, hD2⟩ := hinv2
  rw [hch] at hhmc2
  obtain ⟨h03, hacq2, hsome2⟩ := hhmc2
  have hcan0 : c2.mh.bucket_info.canonical ≠ 0 := hlast hne
  have hneq : c2.mh.bucket_info.acquired ≠ c2.mh.bucket_info.canonical := by
    rw [hacq2]
    exact fun he => hcan0 he.symm
  obtain rfl := stepRelease_eq_stale hch hcu hneq h3
  obtain rfl := stepLoad_eq rfl h4
  refine ⟨rfl, hv2, ?_⟩
  obtain hz := List.getLast?_eq_getLast_of_ne_nil (l := vs) hne
  rw [hz] at hccan ⊢
  show (c2.mh.buckets.set 0 none).get c2.mh.bucket_info.canonical =
    some (vs.getLast hne)
  rw [Buckets.get_set_ne _ _ _ (Ne.symm hcan0)]
  exact hccan

/-- C5 witness: initial 1, load, store 2, release, load: the first
handle observes 1 throughout, the second observes 2. -/
theorem monty_snapshot_witness :
    handleView ({ mh := { buckets := { b0 := some 1, b1 := none,
                                       b2 := none },
                          bucket_info := { acquired := 0,
                                           canonical := 0 } },
                  handle := some 0, destroyed := [] } : MHState Nat) =
      some 1 ∧
    handleView ({ mh := { buckets := { b0 := some 1, b1 := some 2,
                                       b2 := none },
                          bucket_info := { acquired := 0,
                                           canonical := 1 } },
                  handle := some 0, destroyed := [] } : MHState Nat) =
      some 1 ∧
    handleView ({ mh := { buckets := { b0 := none, b1 := some 2,
                                       b2 := none },
                          bucket_info := { acquired := 1,
                                           canonical := 1 } },
                  handle := some 1, destroyed := [1] } : MHState Nat) =
      ([2] : List Nat).getLast? :=
  monty_snapshot [2] (by decide)
    { mh := { buckets := { b0 := some 1, b1 := none, b2 := none },
              bucket_info := { acquired := 0, canonical := 0 } },
      handle := some 0, destroyed := [] }
    { mh := { buckets := { b0 := some 1, b1 := some 2, b2 := none },
              bucket_info := { acquired := 0, canonical := 1 } },
      handle := some 0, destroyed := [] }
    { mh := { buckets := { b0 := none, b1 := some 2, b2 := none },
              bucket_info := { acquired := u8MAX, canonical := 1 } },
      handle := none, destroyed := [1] }
    { mh := { buckets := { b0 := none, b1 := some 2, b2 := none },
              bucket_info := { acquired := 1, canonical := 1 } },
      handle := some 1, destroyed := [1] }
    rfl rfl rfl rfl

/-- C9: the consumer transitions (`load` and handle release) leave the
canonical field of the metadata word unchanged, and the producer
transition (`store`) leaves the acquired field unchanged. -/
theorem monty_metadata_frame {T : Type} (s s1 : MHState T) (v : T) :
    (stepLoad s = some s1 →
      s1.mh.bucket_info.canonical = s.mh.bucket_info.canonical) ∧
    (stepRelease s = some s1 →
      s1.mh.bucket_info.canonical = s.mh.bucket_info.canonical) ∧
    (stepStore s v = some s1 →
      s1.mh.bucket_info.acquired = s.mh.bucket_info.acquired) := by
  refine ⟨fun h => ?_, fun h => ?_, fun h => ?_⟩
  · cases hh : s.handle with
    | some h0 => simp [stepLoad, hh] at h
    | none => obtain rfl := stepLoad_eq hh h; rfl
  · cases hh : s.handle with
    | none => simp [stepRelease, hh] at h
    | some h0 =>
        cases hw : s.mh.buckets.get h0 with
        | none => simp [stepRelease, hh, hw] at h
        | some w =>
            by_cases heq : s.mh.bucket_info.acquired =
                s.mh.bucket_info.canonical
            · obtain rfl := stepRelease_eq_canonical hh hw heq h; rfl
            · obtain rfl := stepRelease_eq_stale hh hw heq h; rfl
  · by_cases hwb3 : writeBucket s.mh.bucket_info < 3
    · by_cases heq : s.mh.bucket_info.acquired =
          s.mh.bucket_info.canonical
      · obtain rfl := stepStore_eq_pinned hwb3 heq h; rfl
      · cases hw : (s.mh.buckets.set (writeBucket s.mh.bucket_info)
            (some v)).get s.mh.bucket_info.canonical with
        | none =>
            rw [stepStore] at h
            rw [if_pos hwb3, if_neg heq, hw] at h
            cases h
        | some w =>
            obtain rfl := stepStore_eq_unpinned hwb3 heq hw h; rfl
    · rw [stepStore] at h
      rw [if_neg hwb3] at h
      cases h

/-- C9 witness: `load` from a fresh channel keeps `canonical = 0`. -/
theorem monty_metadata_frame_witness :
    ({ mh := { buckets := { b0 := some 1, b1 := none, b2 := none },
               bucket_info := { acquired := 0, canonical := 0 } },
       handle := some 0, destroyed := [] } :
        MHState Nat).mh.bucket_info.canonical =
      (MHState.init 1).mh.bucket_info.canonical :=
  (monty_metadata_frame (MHState.init 1)
    { mh := { buckets := { b0 := some 1, b1 := none, b2 := none },
              bucket_info := { acquired := 0, canonical := 0 } },
      handle := some 0, destroyed := [] } 7).1 rfl
